import Mathlib

/-!
Shallow embedding of the protodemo build system (src/build.py,
src/protobuilder/config.py, src/protobuilder/gitutils.py) used to check the
natural-language specification against the code.

Conventions:
* JSON values are modelled by the inductive `JValue`; Python dictionaries are
  association lists with first-match lookup and in-place-replace update, which
  matches `dict` semantics for the operations the program uses.
* Python exceptions are modelled with `Except RunError`; the distinct
  exception classes used by the program become constructors of `RunError`.
* Filesystem and network effects (file reads, `os.listdir`, clones, the
  codegen container) are inputs of the embedded functions; the decision logic
  layered on top of them is translated verbatim.
-/

set_option linter.unusedVariables false
set_option linter.unnecessarySeqFocus false

namespace ProtoDemo

/-- JSON values, as produced by `json.load`. -/
inductive JValue where
  | null
  | bool (b : Bool)
  | num (n : Int)
  | str (s : String)
  | arr (xs : List JValue)
  | obj (kvs : List (String × JValue))

/-- A JSON object's key/value pairs: the model of a Python `dict` whose keys
are strings (insertion ordered, no duplicate keys once built by `dinsert`). -/
abbrev Jobj := List (String × JValue)

/-- First-match lookup, `d.get(k)` / `d[k]` on a Python dict. -/
def dget (kvs : Jobj) (k : String) : Option JValue :=
  match kvs with
  | [] => none
  | (k', v) :: rest => if k' = k then some v else dget rest k

/-- Set one key: replace in place when present (Python dicts keep the original
insertion position), append otherwise. -/
def dinsert (kvs : Jobj) (k : String) (v : JValue) : Jobj :=
  match kvs with
  | [] => [(k, v)]
  | (k', v') :: rest => if k' = k then (k, v) :: rest else (k', v') :: dinsert rest k v

/-- `base.update(override)`: every key of `override` is written onto `base`,
override wins on collision. -/
def dupdate (base override : Jobj) : Jobj :=
  override.foldl (fun acc kv => dinsert acc kv.1 kv.2) base

/-- The exceptions the program can raise, flattened into one error type.
`validationError` is `jsonschema.ValidationError`, `badConfig` is
`protobuilder.config.BadConfig`, `protoRepo` is any other
`ProtoRepoException`, `valueError` is a Python `ValueError`, and
`targetSync` stands for the abstracted per-target failures (clone, codegen,
filesystem). All of them abort the run when they reach `main`. -/
inductive RunError where
  | validationError (msg : String)
  | badConfig (msg : String)
  | protoRepo (msg : String)
  | valueError (msg : String)
  | targetSync (msg : String)
deriving Repr, DecidableEq

/-- `os.path.join(a, b)` for the relative components this program joins. -/
def pathJoin (a b : String) : String := a ++ "/" ++ b

/-- `_DEFAULT_CONFIG_SCHEMA = {"type": "object"}`. -/
def validate_default_schema (j : JValue) : Bool :=
  match j with
  | .obj _ => true
  | _ => false

/-- `_SERVICE_CONFIG_SCHEMA = {"type": "array", "items": {"type": "object"}}`. -/
def validate_service_schema (j : JValue) : Bool :=
  match j with
  | .arr xs => xs.all validate_default_schema
  | _ => false

/-- Membership of a `lang` value in the schema's `enum: ["python", "go"]`. -/
def langInEnum (v : JValue) : Bool :=
  match v with
  | .str s => s = "python" ∨ s = "go"
  | _ => false

/-- `_FULL_CONFIG_SCHEMA`: an object, `lang` and `github_org` required,
`github_org`/`repo` strings when present, `lang` a string drawn from the
supported enum. Extra keys pass through. -/
def validate_full_schema (j : JValue) : Bool :=
  match j with
  | .obj kvs =>
    (match dget kvs "github_org" with
     | some (.str _) => true
     | _ => false) &&
    (match dget kvs "lang" with
     | some v => langInEnum v
     | none => false) &&
    (match dget kvs "repo" with
     | some (.str _) => true
     | some _ => false
     | none => true)
  | _ => false

/-- `config.load_default_config`: the file's parsed content is the input
(`none` models a missing/unreadable file, whose `IOError` also aborts the
run); the parsed value must validate as an object. Returns the object's
fields, which is what every later use consumes. -/
def load_default_config (fileContent : Option JValue) : Except RunError Jobj :=
  match fileContent with
  | none => .error (.targetSync "could not open default config file")
  | some j =>
    if validate_default_schema j then
      match j with
      | .obj kvs => .ok kvs
      | _ => .error (.validationError "default config is not an object")
    else .error (.validationError "default config is not an object")

/-- `config.generated_source_dir`. -/
def generated_source_dir (lang service : String) : Except RunError String :=
  if lang = "python" then .ok (service ++ "_proto")
  else if lang = "go" then .ok (service ++ "_proto")
  else .error (.protoRepo ("Tried to figure out source for unknown lang: " ++ lang))

/-- One iteration of the loop body of `config.load_service_config`: deep-copy
the default config (pure values, so the copy is the value itself), overlay the
per-language override, validate against the full schema, default `repo` to
`proto-{service}-{lang}`, then inject `path`, `service` and `source_dir`. -/
def resolve_entry (service services_dir : String) (default_config entry : Jobj) :
    Except RunError Jobj :=
  let full0 := dupdate default_config entry
  if validate_full_schema (.obj full0) then
    match dget full0 "lang" with
    | some (.str lang) =>
      let full1 := if (dget full0 "repo").isNone
        then dinsert full0 "repo" (.str ("proto-" ++ service ++ "-" ++ lang))
        else full0
      (match generated_source_dir lang service with
       | .error e => .error e
       | .ok src =>
         .ok (dinsert (dinsert (dinsert full1
              "path" (.str (pathJoin services_dir service)))
              "service" (.str service))
              "source_dir" (.str src)))
    | _ => .error (.validationError "lang missing")
  else
    .error (.validationError "merged config failed full schema")

/-- Interpret one element of the service config array as an object.  The
service schema guarantees every element is an object, so the error branch is
unreachable when validation passed. -/
def asObj (j : JValue) : Except RunError Jobj :=
  match j with
  | .obj kvs => .ok kvs
  | _ => .error (.validationError "service config entry is not an object")

/-- The per-entry loop of `config.load_service_config`: resolve each entry in
order, accumulating the per-language configs; a raised exception aborts the
loop, as in Python. -/
def resolve_entries (service services_dir : String) (default_config : Jobj) :
    List JValue → Except RunError (List Jobj)
  | [] => .ok []
  | e :: es =>
    match asObj e with
    | .error err => .error err
    | .ok kvs =>
      match resolve_entry service services_dir default_config kvs with
      | .error err => .error err
      | .ok cfg =>
        match resolve_entries service services_dir default_config es with
        | .error err => .error err
        | .ok rest => .ok (cfg :: rest)

/-- `config.load_service_config`: the per-service config file's parsed content
is the input (`none` models `FileNotFoundError`, raised as `BadConfig`).
Validates the array-of-objects schema, then resolves each per-language entry
in order. -/
def load_service_config (service : String) (default_config : Jobj)
    (services_dir : String) (fileContent : Option JValue) :
    Except RunError (List Jobj) :=
  match fileContent with
  | none => .error (.badConfig ("Must define a config file for each service, missing: "
      ++ pathJoin (pathJoin services_dir service) "config.json"))
  | some cfg =>
    if validate_service_schema cfg then
      match cfg with
      | .arr xs => resolve_entries service services_dir default_config xs
      | _ => .error (.validationError "service config failed schema")
    else
      .error (.validationError "service config failed schema")

/-! ### Python `str.split(sep)` on a non-empty separator

Implemented over `List Char` with a fuel argument so that every concrete
evaluation reduces in the kernel. `pySplit` agrees with Python's
`s.split(sep)` for non-empty `sep` (the only way the program calls it). -/

/-- Does `xs` start with `pre`? -/
def startsWithL (pre xs : List Char) : Bool :=
  match pre, xs with
  | [], _ => true
  | _ :: _, [] => false
  | a :: as, b :: bs => a = b && startsWithL as bs

/-- Worker for `pySplit`: `acc` is the current piece, reversed. The fuel is
an upper bound on the remaining characters, so it never runs out. -/
def splitAux (sep : List Char) : Nat → List Char → List Char → List (List Char)
  | 0, acc, _ => [acc.reverse]
  | _ + 1, acc, [] => [acc.reverse]
  | fuel + 1, acc, x :: xs =>
    if startsWithL sep (x :: xs) then
      acc.reverse :: splitAux sep fuel [] (List.drop sep.length (x :: xs))
    else
      splitAux sep fuel (x :: acc) xs

/-- Python's `s.split(sep)` for non-empty `sep`. -/
def pySplit (s sep : String) : List String :=
  (splitAux sep.data (s.data.length + 1) [] s.data).map String.mk

/-! ### Git object model (the slice of pygit2 the program reads) -/

/-- `pygit2.Signature`: an identity record. -/
structure Signature where
  name : String
  email : String
deriving Repr, DecidableEq

/-- Object id. -/
abbrev Oid := Nat

/-- The git objects the analysed code distinguishes: commits, annotated tag
objects, and everything else (blobs/trees). -/
inductive GObj where
  | commit (author : Signature) (message : String)
  | tagObj (name : String) (target : Oid) (tagger : Signature) (message : String)
  | other
deriving Repr, DecidableEq

/-- The source repository as the inspector reads it: an object store, the
reference namespace (`listall_references` with each reference's target), and
HEAD's target commit id. -/
structure SrcRepo where
  objects : List (Oid × GObj)
  refs : List (String × Oid)
  headTarget : Oid
deriving Repr, DecidableEq

/-- `repo.get(oid)`: `none` when the object store has no such id. -/
def getObj (repo : SrcRepo) (oid : Oid) : Option GObj :=
  (repo.objects.find? (fun p => p.1 = oid)).map Prod.snd

/-- `repo.lookup_reference(ref).target`; a missing reference raises. -/
def lookupRef (repo : SrcRepo) (ref : String) : Except RunError Oid :=
  match repo.refs.find? (fun p => p.1 = ref) with
  | some (_, oid) => .ok oid
  | none => .error (.valueError ("no reference " ++ ref))

/-- `isinstance(obj, pygit2.Tag)`. -/
def isAnnotated (obj : Option GObj) : Bool :=
  match obj with
  | some (.tagObj ..) => true
  | _ => false

/-- The dictionary built by `gitutils.analyze_tag`; the `service`/`version`
keys are set together exactly when the name splits into two segments, so they
are one optional pair here. -/
structure TagRecord where
  name : String
  tag_ref : String
  tagger : Signature
  message : String
  affinity : Option (String × String)
deriving Repr, DecidableEq

/-- The derived-affinity computation at the end of `gitutils.analyze_tag`:
split the tag name on `/`; exactly two segments yield the
`(service, version)` pair, any other segment count yields no affinity. -/
def tagAffinity (tagname : String) : Option (String × String) :=
  match pySplit tagname "/" with
  | [s, v] => some (s, v)
  | _ => none

/-- `gitutils.analyze_tag`: strip the `refs/tags/` prefix (a `ValueError` when
absent); resolve the reference; take tagger and message from the tag object
when annotated, else from the HEAD commit's author with the synthesized
message `"{tagname}\n"`; derive `(service, version)` when the name splits on
`/` into exactly two parts. -/
def analyze_tag (repo : SrcRepo) (tagref : String) : Except RunError TagRecord :=
  match (pySplit tagref "refs/tags/").get? 1 with
  | none => .error (.valueError
      ("tagref '" ++ tagref ++ "' was not of the form 'refs/tags/mytag'"))
  | some tagname =>
    match lookupRef repo tagref with
    | .error e => .error e
    | .ok refTarget =>
      match getObj repo refTarget with
      | some (.tagObj _ _ tg msg) =>
        .ok { name := tagname, tag_ref := tagref, tagger := tg,
              message := msg, affinity := tagAffinity tagname }
      | _ =>
        match getObj repo repo.headTarget with
        | some (.commit author _) =>
          .ok { name := tagname, tag_ref := tagref, tagger := author,
                message := tagname ++ "\n", affinity := tagAffinity tagname }
        | _ => .error (.valueError "HEAD commit not found")

/-- `gitutils.get_target_from_tagref`: dereference an annotated tag one level,
return a lightweight tag's target as is. -/
def get_target_from_tagref (repo : SrcRepo) (tagref : String) : Except RunError Oid :=
  match lookupRef repo tagref with
  | .error e => .error e
  | .ok target =>
    match getObj repo target with
    | some (.tagObj _ t _ _) => .ok t
    | _ => .ok target

/-- Does `s` start with `pre` (string version, for reference names)? -/
def strStartsWith (s pre : String) : Bool := startsWithL pre.data s.data

/-- `get_target_from_tagref(repo, ref) == target` as the comparison in
`get_all_tags` computes it (a raised exception would propagate; for listed
references the lookup always succeeds, so the error branch is unreachable). -/
def tagTargetIs (repo : SrcRepo) (ref : String) (target : Oid) : Bool :=
  match get_target_from_tagref repo ref with
  | .ok t => t = target
  | .error _ => false

/-- `gitutils.get_all_tags`: every reference under `refs/tags/` whose resolved
target is the given commit. -/
def get_all_tags (repo : SrcRepo) (target : Oid) : List String :=
  (repo.refs.map Prod.fst).filter
    (fun ref => strStartsWith ref "refs/tags/" && tagTargetIs repo ref target)

/-- The dictionary built by `gitutils.analyze_head`, as `build.update_repo`
and `build.main` consume it (`git_data` / `repodata`). -/
structure GitData where
  author : Signature
  committer : Signature
  message : String
  dirty : Bool
  tags : List TagRecord
deriving Repr, DecidableEq

/-- `gitutils.check_dirty`: the three diff scopes (working tree vs index,
working tree vs HEAD, index vs HEAD) given as the inputs; dirty when any is
non-empty. The diff lengths are the environment. -/
def check_dirty (workingLen lastCommitLen stagedLen : Nat) : Bool :=
  if stagedLen + workingLen + lastCommitLen ≠ 0 then true else false

/-! ### `build.update_repo` — the per-target synchronizer -/

/-- `job_config['k']` for the string-valued keys that `load_service_config`
always populates on resolved jobs. -/
def jgetStr (kvs : Jobj) (k : String) : String :=
  match dget kvs k with
  | some (.str s) => s
  | _ => ""

/-- The downstream repository's state as `update_repo` observes it through
pygit2; these are the effects of clone/init, codegen and `index.add_all`,
which the embedding takes as inputs. -/
structure DownstreamState where
  /-- `repo.is_empty` after `prepare_repo`. -/
  isEmpty : Bool
  /-- `len(repo.diff('HEAD', cached=True)) != 0` after staging the
  materialized tree. -/
  diffNonempty : Bool
  /-- Tag names for which `repo.create_tag` raises `ValueError` because the
  tag already exists downstream. -/
  existingTags : List String
deriving Repr, DecidableEq

/-- What one run of `build.update_repo` did to its target. -/
structure SyncResult where
  /-- An initial empty commit was created (`repo.is_empty` branch). -/
  madeInitialCommit : Bool
  /-- The content commit's message, `some` exactly when the staged diff was
  non-empty and a commit was created. -/
  commitMessage : Option String
  /-- The TagRecords whose `service` equalled this job's service: the tags
  the replication loop attempted to create. -/
  tagsAttempted : List TagRecord
  /-- Versions of the tags actually created (attempted minus the ones whose
  creation raised `ValueError` for already existing). -/
  tagsCreated : List String
  /-- The `push_objects` list accumulated by the run. -/
  pushObjects : List String
  /-- `some objs` exactly when `repo.remotes['origin'].push(objs)` was
  called — one batched push, or nothing. -/
  pushed : Option (List String)
deriving Repr, DecidableEq

/-- The tag-replication loop of `update_repo`: for each TagRecord whose
derived service equals the job's service, create the tag unless a tag of that
version already exists (then it is skipped with a warning); each created tag
appends `refs/tags/{version}` to `push_objects`. The fold state is
`(push_objects, created versions, existing tag names)`. -/
def replicate_tags (svc : String) : List TagRecord → List String → List String →
    List String × List String × List String
  | [], push, exist => (push, [], exist)
  | t :: ts, push, exist =>
    if t.affinity.map Prod.fst = some svc then
      match t.affinity with
      | some (_, v) =>
        if v ∈ exist then replicate_tags svc ts push exist
        else
          let r := replicate_tags svc ts (push ++ ["refs/tags/" ++ v]) (v :: exist)
          (r.1, v :: r.2.1, r.2.2)
      | none => replicate_tags svc ts push exist
    else replicate_tags svc ts push exist

/-- `build.update_repo`, decision logic: bootstrap an initial commit when the
repository is empty; commit exactly when the staged diff is non-empty, with
the `[DIRTY] - ` marker prefixed when the source state was dirty and the
branch appended to `push_objects`; replicate service-matching tags; push the
accumulated objects in one batch only when `push_objects` is non-empty and
`update_git` was requested. The initial bootstrap commit is not appended to
`push_objects`, only the content commit is. -/
def update_repo (job : Jobj) (git_data : GitData) (st : DownstreamState)
    (update_git : Bool) : SyncResult :=
  let branch := "refs/heads/master"
  let madeInitialCommit := st.isEmpty
  let dirty_message := if git_data.dirty then "[DIRTY] - " else ""
  let commitMessage :=
    if st.diffNonempty then
      some (dirty_message ++ "Automatic Commit - protoc codegen\n\n" ++ git_data.message)
    else none
  let push0 : List String := if st.diffNonempty then [branch] else []
  let svc := jgetStr job "service"
  let tagsAttempted := git_data.tags.filter (fun t => t.affinity.map Prod.fst = some svc)
  let (pushObjects, tagsCreated, _) := replicate_tags svc git_data.tags push0 st.existingTags
  let pushed :=
    if pushObjects = [] then none
    else if update_git then some pushObjects
    else none
  { madeInitialCommit := madeInitialCommit, commitMessage := commitMessage,
    tagsAttempted := tagsAttempted, tagsCreated := tagsCreated,
    pushObjects := pushObjects, pushed := pushed }

/-! ### `build.main` — the orchestrator -/

/-- The command-line arguments that steer the decisions under verification.
`service` and `lang` are the optional filters; `git` is true for the
`--git` output mode (push to live remotes) and false for `--output`. -/
structure Args where
  service : Option String
  lang : Option String
  git : Bool
deriving Repr, DecidableEq

/-- The `continue` conditions of the job loop:
`args.lang and args.lang != job['lang']` (and the same for `service`),
including Python's truthiness of the empty string. -/
def skipJob (args : Args) (job : Jobj) : Bool :=
  (match args.lang with
   | some l => l ≠ "" && l ≠ jgetStr job "lang"
   | none => false) ||
  (match args.service with
   | some s => s ≠ "" && s ≠ jgetStr job "service"
   | none => false)

/-- The manifest-building loop of `main`: per listed service directory, load
and resolve its config and extend the manifest; a raised exception aborts the
whole loop. Each service comes with its config file's parsed content
(`none` = no config file). -/
def buildManifest (default_config : Jobj) (services_dir : String) :
    List (String × Option JValue) → Except RunError (List Jobj)
  | [] => .ok []
  | (s, cfg) :: rest =>
    match load_service_config s default_config services_dir cfg with
    | .error e => .error e
    | .ok cs =>
      match buildManifest default_config services_dir rest with
      | .error e => .error e
      | .ok more => .ok (cs ++ more)

/-- The job loop of `main`: skip filtered jobs; `update_repo` may raise (its
clone, codegen and filesystem failures are abstracted into `syncFails`), and
a raised exception aborts the loop. Returns the jobs on which `update_repo`
was invoked, in order, and whether the loop ended in an exception. -/
def processJobs (args : Args) (syncFails : Jobj → Bool) :
    List Jobj → List Jobj × Bool
  | [] => ([], false)
  | job :: rest =>
    if skipJob args job then processJobs args syncFails rest
    else if syncFails job then ([job], true)
    else ((processJobs args syncFails rest).1.cons job,
          (processJobs args syncFails rest).2)

/-- `build.main` from the dirty-precondition check onward: the `try` block
raises `ProtoRepoException` when a push is requested on a dirty source, then
loads the default config (its file content abstracted to
`defaultConfigContent`), builds the manifest over every service directory,
and runs the job loop; any exception is caught at the boundary and the
process exits `1`, else `0`. Returns the exit code and the jobs on which
`update_repo` was invoked. -/
def runMain (args : Args) (workdir : String) (repodata : GitData)
    (defaultConfigContent : Option JValue)
    (services : List (String × Option JValue))
    (syncFails : Jobj → Bool) : Nat × List Jobj :=
  if repodata.dirty && args.git then (1, [])
  else
    match load_default_config defaultConfigContent with
    | .error _ => (1, [])
    | .ok default_config =>
      match buildManifest default_config (pathJoin workdir "service") services with
      | .error _ => (1, [])
      | .ok manifest =>
        ((if (processJobs args syncFails manifest).2 then 1 else 0),
         (processJobs args syncFails manifest).1)

/-! ## Theorems -/

/-- C2: for every source state with `dirty = true`, if a push to remote
repositories was requested (`--git`), the run terminates with the
precondition `ProtoRepoException` before any target is attempted: it exits
`1` with `update_repo` invoked on zero targets, so zero downstream
repositories are modified. -/
theorem dirty_push_run_refused (args : Args) (workdir : String)
    (repodata : GitData) (dc : Option JValue)
    (services : List (String × Option JValue)) (sf : Jobj → Bool)
    (hd : repodata.dirty = true) (hg : args.git = true) :
    runMain args workdir repodata dc services sf = (1, []) := by
  simp [runMain, hd, hg]

/-- Witness for C2 at a concrete dirty source state with `--git`. -/
theorem dirty_push_run_refused_witness :
    runMain ⟨none, none, true⟩ "/w"
      ⟨⟨"A", "a@x"⟩, ⟨"A", "a@x"⟩, "m\n", true, []⟩
      (some (.obj [])) [("billing", none)] (fun _ => false) = (1, []) :=
  dirty_push_run_refused _ _ _ _ _ _ rfl rfl

/-- The push-object list built by the tag-replication loop is the incoming
list followed by `refs/tags/{v}` for each created version, in creation
order. -/
lemma replicate_tags_push_shape (svc : String) :
    ∀ (ts : List TagRecord) (push exist : List String),
      (replicate_tags svc ts push exist).1 =
        push ++ ((replicate_tags svc ts push exist).2.1.map
          (fun v => "refs/tags/" ++ v)) := by
  intro ts
  induction ts with
  | nil => intro push exist; simp [replicate_tags]
  | cons t ts ih =>
    intro push exist
    unfold replicate_tags
    by_cases hm : t.affinity.map Prod.fst = some svc
    · simp only [hm, if_true]
      match ht : t.affinity with
      | none => simpa using ih push exist
      | some (s, v) =>
        by_cases hv : v ∈ exist
        · simp [hv, ih]
        · simp only [hv, if_false]
          have := ih (push ++ ["refs/tags/" ++ v]) (v :: exist)
          simp [this, List.append_assoc]
    · simp [hm, ih]

/-- Every version the replication loop creates comes from a TagRecord whose
derived service is exactly the target's service. -/
lemma replicate_tags_created_from (svc : String) :
    ∀ (ts : List TagRecord) (push exist : List String) (v : String),
      v ∈ (replicate_tags svc ts push exist).2.1 →
      ∃ t ∈ ts, t.affinity = some (svc, v) := by
  intro ts
  induction ts with
  | nil => intro push exist v h; simp [replicate_tags] at h
  | cons t ts ih =>
    intro push exist v h
    unfold replicate_tags at h
    by_cases hm : t.affinity.map Prod.fst = some svc
    · simp only [hm, if_true] at h
      match ht : t.affinity with
      | none =>
        rw [ht] at h
        obtain ⟨u, hu, haff⟩ := ih push exist v h
        exact ⟨u, List.mem_cons_of_mem _ hu, haff⟩
      | some (s, v0) =>
        rw [ht] at h
        have hs : s = svc := by rw [ht] at hm; simpa using hm
        by_cases hv : v0 ∈ exist
        · simp only [hv, if_true] at h
          obtain ⟨u, hu, haff⟩ := ih push exist v h
          exact ⟨u, List.mem_cons_of_mem _ hu, haff⟩
        · simp only [hv, if_false] at h
          rcases List.mem_cons.mp h with hv0 | hrest
          · exact ⟨t, List.mem_cons_self t ts, by rw [ht, hs, hv0]⟩
          · obtain ⟨u, hu, haff⟩ :=
              ih (push ++ ["refs/tags/" ++ v0]) (v0 :: exist) v hrest
            exact ⟨u, List.mem_cons_of_mem _ hu, haff⟩
    · simp only [hm, if_false] at h
      obtain ⟨u, hu, haff⟩ := ih push exist v h
      exact ⟨u, List.mem_cons_of_mem _ hu, haff⟩

/-- C5: resolving default config `{github_org: "acme"}` for service
`billing` with per-language override list `[{lang: "go"}]` yields exactly one
TargetConfig holding `github_org = "acme"`, `lang = "go"`, the defaulted
`repo = "proto-billing-go"`, the injected `service = "billing"`,
`path = "service/billing"` and generated subdirectory
`source_dir = "billing_proto"`; and the shallow merge lets the override win,
as resolving default `{github_org: "acme", lang: "python"}` with the same
override list yields `lang = "go"` with the same repo name. -/
theorem config_resolution_scenario :
    load_service_config "billing" [("github_org", .str "acme")] "service"
        (some (.arr [.obj [("lang", .str "go")]])) =
      .ok [[("github_org", .str "acme"), ("lang", .str "go"),
            ("repo", .str "proto-billing-go"), ("path", .str "service/billing"),
            ("service", .str "billing"), ("source_dir", .str "billing_proto")]] ∧
    load_service_config "billing"
        [("github_org", .str "acme"), ("lang", .str "python")] "service"
        (some (.arr [.obj [("lang", .str "go")]])) =
      .ok [[("github_org", .str "acme"), ("lang", .str "go"),
            ("repo", .str "proto-billing-go"), ("path", .str "service/billing"),
            ("service", .str "billing"), ("source_dir", .str "billing_proto")]] :=
  ⟨rfl, rfl⟩

/-- C3: a push is attempted if and only if update-to-remote was requested
AND at least one of {the content commit was made, at least one new tag was
created} holds; when nothing changed no push occurs even if requested, and
when a push occurs its single batch is exactly the branch reference (when
the commit was made) followed by every newly created tag reference. -/
theorem push_decision_iff_and_batch (job : Jobj) (gd : GitData)
    (st : DownstreamState) (ug : Bool) :
    ((update_repo job gd st ug).pushed.isSome ↔
      ug = true ∧ ((update_repo job gd st ug).commitMessage.isSome ∨
        (update_repo job gd st ug).tagsCreated ≠ [])) ∧
    ((update_repo job gd st ug).pushed = none ∨
      (update_repo job gd st ug).pushed = some
        ((if (update_repo job gd st ug).commitMessage.isSome
            then ["refs/heads/master"] else []) ++
          (update_repo job gd st ug).tagsCreated.map
            (fun v => "refs/tags/" ++ v))) := by
  have hshape := replicate_tags_push_shape (jgetStr job "service") gd.tags
      (if st.diffNonempty then ["refs/heads/master"] else []) st.existingTags
  cases hd : st.diffNonempty <;> cases ug <;>
    simp_all [update_repo] <;>
    rcases hc : (replicate_tags (jgetStr job "service") gd.tags [] st.existingTags).2.1
      with _ | ⟨v, vs⟩ <;>
    simp_all

/-- C4 counterexamples use this concrete identity. -/
def sigA : Signature := ⟨"Alice Dev", "alice@acme.test"⟩

/-- A dirty source snapshot with no tags at HEAD. -/
def dirtyGit : GitData := ⟨sigA, sigA, "update protos\n", true, []⟩

/-- A resolved billing/go job, restricted to the fields `update_repo`
reads. -/
def jobBillingGo : Jobj :=
  [("service", .str "billing"), ("repo", .str "proto-billing-go"),
   ("lang", .str "go")]

/-- C4 counterexample: with a dirty source state, update-to-remote requested
and a non-empty staged diff, `update_repo` still pushes — there is no second
defensive dirty check at the point of push, contrary to the claim. -/
theorem push_proceeds_when_dirty_cex :
    dirtyGit.dirty = true ∧
    (update_repo jobBillingGo dirtyGit ⟨false, true, []⟩ true).pushed =
      some ["refs/heads/master"] :=
  ⟨rfl, rfl⟩

/-- C4 as amended: `update_repo` performs no dirty check at the point of
push — its push decision is identical on a dirty and on a clean source
state — and the only effect of dirtiness inside `update_repo` is the
`[DIRTY] - ` marker prefixed to the content commit's message. -/
theorem update_repo_no_dirty_check_at_push (job : Jobj) (gd : GitData)
    (st : DownstreamState) (ug : Bool) :
    ((update_repo job gd st ug).pushed =
      (update_repo job { gd with dirty := false } st ug).pushed) ∧
    (gd.dirty = true → st.diffNonempty = true →
      (update_repo job gd st ug).commitMessage =
        some ("[DIRTY] - Automatic Commit - protoc codegen\n\n" ++ gd.message)) := by
  constructor
  · rfl
  · intro h1 h2
    simp [update_repo, h1, h2]

/-- Witness for C4's amended theorem at the dirty billing/go scenario. -/
theorem update_repo_no_dirty_check_at_push_witness :
    ((update_repo jobBillingGo dirtyGit ⟨false, true, []⟩ true).pushed =
      (update_repo jobBillingGo { dirtyGit with dirty := false }
        ⟨false, true, []⟩ true).pushed) ∧
    (update_repo jobBillingGo dirtyGit ⟨false, true, []⟩ true).commitMessage =
      some ("[DIRTY] - Automatic Commit - protoc codegen\n\n" ++ dirtyGit.message) :=
  ⟨(update_repo_no_dirty_check_at_push jobBillingGo dirtyGit ⟨false, true, []⟩ true).1,
   (update_repo_no_dirty_check_at_push jobBillingGo dirtyGit ⟨false, true, []⟩ true).2
     rfl rfl⟩

/-- C9: the generated-code subdirectory is `{service}_proto` for both
supported languages — the same string, independent of which of the two the
language is — and every language outside the enum raises a
`ProtoRepoException` instead of returning a value. -/
theorem generated_source_dir_uniform :
    (∀ s, generated_source_dir "python" s = .ok (s ++ "_proto")) ∧
    (∀ s, generated_source_dir "go" s = .ok (s ++ "_proto")) ∧
    (∀ s, generated_source_dir "python" s = generated_source_dir "go" s) ∧
    (∀ l s, l ≠ "python" → l ≠ "go" → ∃ e, generated_source_dir l s = .error e) := by
  refine ⟨fun s => rfl, fun s => rfl, fun s => rfl, fun l s h1 h2 => ?_⟩
  exact ⟨RunError.protoRepo ("Tried to figure out source for unknown lang: " ++ l),
    by simp [generated_source_dir, h1, h2]⟩

/-- Witness for C9 at concrete languages: both supported languages map
service `billing` to `billing_proto`, and `rust` is rejected. -/
theorem generated_source_dir_uniform_witness :
    generated_source_dir "python" "billing" = .ok "billing_proto" ∧
    generated_source_dir "go" "billing" = .ok "billing_proto" ∧
    (∃ e, generated_source_dir "rust" "billing" = .error e) :=
  ⟨generated_source_dir_uniform.1 "billing",
   generated_source_dir_uniform.2.1 "billing",
   generated_source_dir_uniform.2.2.2 "rust" "billing"
     (by decide) (by decide)⟩

/-- When the job loop ends in an exception, the attempted jobs are a run of
successfully synchronized jobs followed by exactly one failing job, and
nothing after it. -/
lemma processJobs_failed_shape (args : Args) (sf : Jobj → Bool) :
    ∀ jobs : List Jobj, (processJobs args sf jobs).2 = true →
      ∃ pre j, (processJobs args sf jobs).1 = pre ++ [j] ∧ sf j = true ∧
        ∀ k ∈ pre, sf k = false := by
  intro jobs
  induction jobs with
  | nil => intro h; simp [processJobs] at h
  | cons job rest ih =>
    intro h
    unfold processJobs at h ⊢
    by_cases hs : skipJob args job
    · simp only [hs, if_true] at h ⊢
      exact ih h
    · simp only [hs, if_false] at h ⊢
      by_cases hf : sf job
      · simp only [hf, if_true] at h ⊢
        exact ⟨[], job, rfl, hf, by simp⟩
      · simp only [hf, if_false] at h ⊢
        obtain ⟨pre, j, hsplit, hj, hpre⟩ := ih h
        refine ⟨job :: pre, j, ?_, hj, ?_⟩
        · simp [List.cons_append, hsplit]
        · intro k hk
          rcases List.mem_cons.mp hk with rfl | hk
          · simpa using hf
          · exact hpre k hk

/-- When the job loop ends without an exception, every attempted job
synchronized successfully. -/
lemma processJobs_ok_all (args : Args) (sf : Jobj → Bool) :
    ∀ jobs : List Jobj, (processJobs args sf jobs).2 = false →
      ∀ k ∈ (processJobs args sf jobs).1, sf k = false := by
  intro jobs
  induction jobs with
  | nil => intro _ k hk; simp [processJobs] at hk
  | cons job rest ih =>
    intro h k hk
    unfold processJobs at h hk
    by_cases hs : skipJob args job
    · simp only [hs, if_true] at h hk
      exact ih h k hk
    · simp only [hs, if_false] at h hk
      by_cases hf : sf job
      · simp [hf] at h
      · simp only [hf, if_false] at h hk
        rcases List.mem_cons.mp hk with rfl | hk
        · simpa using hf
        · exact ih h k hk

/-- When the manifest loop finished, every listed service's configuration
loaded and validated successfully. -/
lemma buildManifest_ok_each (d : Jobj) (dir : String) :
    ∀ (svcs : List (String × Option JValue)) (m : List Jobj),
      buildManifest d dir svcs = .ok m →
      ∀ p ∈ svcs, ∃ cs, load_service_config p.1 d dir p.2 = .ok cs := by
  intro svcs
  induction svcs with
  | nil => intro m _ p hp; simp at hp
  | cons q rest ih =>
    obtain ⟨s, cfg⟩ := q
    intro m h p hp
    unfold buildManifest at h
    cases hl : load_service_config s d dir cfg with
    | error e => rw [hl] at h; simp at h
    | ok cs =>
      rw [hl] at h
      rcases List.mem_cons.mp hp with rfl | hmem
      · exact ⟨cs, hl⟩
      · cases hr : buildManifest d dir rest with
        | error e => rw [hr] at h; simp at h
        | ok more => exact ih more hr p hmem

/-- C10: the orchestrator loads and schema-validates every service
directory's configuration before processing any target and before applying
the `--service`/`--lang` filters, so an invalid or missing config file — even
for a service the filters would exclude — aborts the run with exit code 1
and zero targets processed. -/
theorem invalid_service_config_aborts_run (args : Args) (workdir : String)
    (repodata : GitData) (dc : Option JValue)
    (services : List (String × Option JValue)) (sf : Jobj → Bool)
    (s : String) (cfg : Option JValue) (d : Jobj)
    (hnd : (repodata.dirty && args.git) = false)
    (hdc : load_default_config dc = .ok d)
    (hmem : (s, cfg) ∈ services)
    (hbad : ∀ cs, load_service_config s d (pathJoin workdir "service") cfg ≠ .ok cs) :
    runMain args workdir repodata dc services sf = (1, []) := by
  unfold runMain
  rw [hnd, hdc]
  simp only [Bool.false_eq_true, if_false]
  cases hm : buildManifest d (pathJoin workdir "service") services with
  | error e => rfl
  | ok m =>
    exfalso
    obtain ⟨cs, hcs⟩ :=
      buildManifest_ok_each d (pathJoin workdir "service") services m hm (s, cfg) hmem
    exact hbad cs hcs

/-- A clean source snapshot with no tags at HEAD. -/
def cleanGit : GitData := ⟨sigA, sigA, "update protos\n", false, []⟩

/-- A service config listing two languages, go then python. -/
def svcCfgTwoLangs : JValue :=
  .arr [.obj [("lang", .str "go"), ("github_org", .str "acme")],
        .obj [("lang", .str "python"), ("github_org", .str "acme")]]

/-- An environment in which synchronizing any go target fails (clone,
codegen or filesystem error) while every other target succeeds. -/
def failGoSync : Jobj → Bool := fun j => jgetStr j "lang" = "go"

/-- The billing/go TargetConfig as `load_service_config` resolves it in the
C1/C10 concrete environment. -/
def resolvedBillingGo : Jobj :=
  [("lang", .str "go"), ("github_org", .str "acme"),
   ("repo", .str "proto-billing-go"), ("path", .str "/w/service/billing"),
   ("service", .str "billing"), ("source_dir", .str "billing_proto")]

/-- Witness for C10 at a concrete run: service `bad` has no config file and
the `--lang python` filter would exclude nothing of it, yet the run aborts
with exit 1 and zero targets processed. -/
theorem invalid_service_config_aborts_run_witness :
    runMain ⟨none, some "python", true⟩ "/w" cleanGit (some (.obj []))
      [("billing", some svcCfgTwoLangs), ("bad", none)] (fun _ => false) = (1, []) :=
  invalid_service_config_aborts_run ⟨none, some "python", true⟩ "/w" cleanGit
    (some (.obj [])) [("billing", some svcCfgTwoLangs), ("bad", none)]
    (fun _ => false) "bad" none [] rfl rfl
    (by simp)
    (fun cs h => Except.noConfusion h)

/-- C1 counterexample: with two resolved targets (billing/go then
billing/python), no filters, and a synchronization failure on the go target,
the run exits 1 having attempted only the go target — the remaining
billing/python target is never attempted, contrary to the claim that every
remaining target is still attempted. -/
theorem target_failure_stops_remaining_targets_cex :
    ((buildManifest [] (pathJoin "/w" "service")
        [("billing", some svcCfgTwoLangs)]).map
        (fun m => m.map (fun j => jgetStr j "lang")) = .ok ["go", "python"]) ∧
    ((runMain ⟨none, none, true⟩ "/w" cleanGit (some (.obj []))
        [("billing", some svcCfgTwoLangs)] failGoSync).1 = 1) ∧
    ((runMain ⟨none, none, true⟩ "/w" cleanGit (some (.obj []))
        [("billing", some svcCfgTwoLangs)] failGoSync).2.map
        (fun j => jgetStr j "lang") = ["go"]) :=
  ⟨rfl, rfl, rfl⟩

/-- C1 as amended: when the synchronization of one target fails, the
orchestrator catches the failure at its boundary and exits non-zero, but it
does not attempt the remaining targets: the attempted targets are the
successfully synchronized ones followed by the single failing one, at which
the loop over targets stops. -/
theorem run_aborts_at_first_target_failure (args : Args) (workdir : String)
    (repodata : GitData) (dc : Option JValue)
    (services : List (String × Option JValue)) (sf : Jobj → Bool)
    (c : Nat) (att : List Jobj)
    (h : runMain args workdir repodata dc services sf = (c, att))
    (hfail : ∃ j ∈ att, sf j = true) :
    c = 1 ∧ ∃ pre j, att = pre ++ [j] ∧ sf j = true ∧
      ∀ k ∈ pre, sf k = false := by
  obtain ⟨j0, hj0, hsf0⟩ := hfail
  unfold runMain at h
  split at h
  · cases h; simp at hj0
  · split at h
    · cases h; simp at hj0
    · split at h
      · cases h; simp at hj0
      · rename_i d hdc m hm
        cases h
        by_cases hfl : (processJobs args sf m).2 = true
        · refine ⟨by rw [hfl]; rfl, processJobs_failed_shape args sf m hfl⟩
        · exfalso
          have := processJobs_ok_all args sf m (by simpa using hfl) j0 hj0
          rw [hsf0] at this
          exact Bool.noConfusion this

/-- Witness for C1's amended theorem at the concrete two-target environment
with a failing go target. -/
theorem run_aborts_at_first_target_failure_witness :
    (runMain ⟨none, none, true⟩ "/w" cleanGit (some (.obj []))
        [("billing", some svcCfgTwoLangs)] failGoSync).1 = 1 ∧
    ∃ pre j, (runMain ⟨none, none, true⟩ "/w" cleanGit (some (.obj []))
        [("billing", some svcCfgTwoLangs)] failGoSync).2 = pre ++ [j] ∧
      failGoSync j = true ∧ ∀ k ∈ pre, failGoSync k = false := by
  have h := run_aborts_at_first_target_failure ⟨none, none, true⟩ "/w" cleanGit
    (some (.obj [])) [("billing", some svcCfgTwoLangs)] failGoSync
    (runMain ⟨none, none, true⟩ "/w" cleanGit (some (.obj []))
      [("billing", some svcCfgTwoLangs)] failGoSync).1
    (runMain ⟨none, none, true⟩ "/w" cleanGit (some (.obj []))
      [("billing", some svcCfgTwoLangs)] failGoSync).2
    rfl ⟨resolvedBillingGo, List.Mem.head _, rfl⟩
  exact h

/-- A string with a newline appended is never empty. -/
lemma append_newline_ne_empty (s : String) : s ++ "\n" ≠ "" := by
  intro hc
  have hd := congrArg String.data hc
  rw [String.data_append] at hd
  simp at hd

/-- An optional git object none of whose annotated-tag instances it can be is
not an annotated tag. -/
lemma isAnnotated_false_of_no_tagObj (o : Option GObj)
    (h : ∀ n tgt tg msg, ¬ o = some (.tagObj n tgt tg msg)) :
    isAnnotated o = false := by
  match o with
  | none => rfl
  | some (.commit a m) => rfl
  | some .other => rfl
  | some (.tagObj n tgt tg msg) => exact absurd rfl (h n tgt tg msg)

/-- Characterization of a successful `analyze_tag`: the record's name is the
reference with `refs/tags/` stripped, its affinity follows `tagAffinity`, and
tagger/message come from the tag object when the reference points at an
annotated tag, else from the HEAD commit's author with the name plus a
newline as message. -/
lemma analyze_tag_ok (repo : SrcRepo) (tagref : String) (rec : TagRecord)
    (h : analyze_tag repo tagref = .ok rec) :
    ∃ tagname oid,
      (pySplit tagref "refs/tags/").get? 1 = some tagname ∧
      lookupRef repo tagref = .ok oid ∧
      rec.name = tagname ∧ rec.tag_ref = tagref ∧
      rec.affinity = tagAffinity tagname ∧
      ((∃ n tgt tg msg, getObj repo oid = some (.tagObj n tgt tg msg) ∧
          rec.tagger = tg ∧ rec.message = msg) ∨
        (isAnnotated (getObj repo oid) = false ∧
          ∃ a m, getObj repo repo.headTarget = some (.commit a m) ∧
            rec.tagger = a ∧ rec.message = tagname ++ "\n")) := by
  unfold analyze_tag at h
  split at h
  · exact absurd h (by simp)
  · rename_i tagname hname
    split at h
    · exact absurd h (by simp)
    · rename_i oid hlook
      split at h
      · rename_i n tgt tg msg hobj
        cases h
        exact ⟨tagname, oid, hname, hlook, rfl, rfl, rfl,
          .inl ⟨n, tgt, tg, msg, hobj, rfl, rfl⟩⟩
      · rename_i hnotag
        split at h
        · rename_i a m hhead
          cases h
          refine ⟨tagname, oid, hname, hlook, rfl, rfl, rfl,
            .inr ⟨?_, a, m, hhead, rfl, rfl⟩⟩
          exact isAnnotated_false_of_no_tagObj _ (fun n tgt tg msg => hnotag n tgt tg msg)
        · exact absurd h (by simp)

/-- For an annotated tag, `get_target_from_tagref` dereferences the tag
object one level. -/
lemma get_target_annotated (repo : SrcRepo) (tagref : String) (oid : Oid)
    (n : String) (tgt : Oid) (tg : Signature) (msg : String)
    (hlook : lookupRef repo tagref = .ok oid)
    (hobj : getObj repo oid = some (.tagObj n tgt tg msg)) :
    get_target_from_tagref repo tagref = .ok tgt := by
  simp [get_target_from_tagref, hlook, hobj]

/-- For a lightweight tag, `get_target_from_tagref` returns the reference's
own target. -/
lemma get_target_lightweight (repo : SrcRepo) (tagref : String) (oid : Oid)
    (hlook : lookupRef repo tagref = .ok oid)
    (hla : isAnnotated (getObj repo oid) = false) :
    get_target_from_tagref repo tagref = .ok oid := by
  match ho : getObj repo oid with
  | none => simp [get_target_from_tagref, hlook, ho]
  | some (.commit a m) => simp [get_target_from_tagref, hlook, ho]
  | some .other => simp [get_target_from_tagref, hlook, ho]
  | some (.tagObj n tgt tg msg) => rw [ho] at hla; simp [isAnnotated] at hla

/-- The concrete tagger identity of the C6 scenario's annotated tag. -/
def sigB : Signature := ⟨"Bob Tagger", "bob@acme.test"⟩

/-- The C6 scenario repository: HEAD is commit 0; `helloworld/1.0.0` is a
lightweight tag on commit 0 and `helloworld/2.0.0` an annotated tag whose
tag object 1 points at commit 0. -/
def srcRepoC6 : SrcRepo :=
  { objects := [(0, .commit sigA "update protos\n"),
                (1, .tagObj "helloworld/2.0.0" 0 sigB "release two\n")],
    refs := [("refs/heads/master", 0),
             ("refs/tags/helloworld/1.0.0", 0),
             ("refs/tags/helloworld/2.0.0", 1)],
    headTarget := 0 }

/-- C6 counterexample: for the lightweight tag `helloworld/1.0.0`, the
synthesized message is the tag name followed by a newline, which is not
equal to the tag name as the claim states. -/
theorem lightweight_tag_message_not_name_cex :
    (analyze_tag srcRepoC6 "refs/tags/helloworld/1.0.0").map TagRecord.message =
      .ok "helloworld/1.0.0\n" ∧
    ("helloworld/1.0.0\n" : String) ≠ "helloworld/1.0.0" :=
  ⟨rfl, by decide⟩

/-- C6 as amended: tagger and message are resolved uniformly — for an
annotated tag from the tag object, for a lightweight tag from the HEAD
commit's author with a synthesized message equal to the tag name followed by
a newline (hence non-empty) — and `get_target_from_tagref` puts both kinds
on equal points-at-HEAD footing by dereferencing an annotated tag one level
and taking a lightweight tag's target as is. -/
theorem tag_resolution_uniform (repo : SrcRepo) (tagref : String)
    (oid : Oid) (rec : TagRecord)
    (hlook : lookupRef repo tagref = .ok oid)
    (h : analyze_tag repo tagref = .ok rec) :
    (∀ n tgt tg msg, getObj repo oid = some (.tagObj n tgt tg msg) →
      rec.tagger = tg ∧ rec.message = msg ∧
      get_target_from_tagref repo tagref = .ok tgt) ∧
    (isAnnotated (getObj repo oid) = false →
      ∃ a m, getObj repo repo.headTarget = some (.commit a m) ∧
        rec.tagger = a ∧ rec.message = rec.name ++ "\n" ∧ rec.message ≠ "" ∧
        get_target_from_tagref repo tagref = .ok oid) := by
  obtain ⟨tagname, oid', hname, hlook', hn, htr, haff, hres⟩ :=
    analyze_tag_ok repo tagref rec h
  have hoid : oid' = oid := Except.ok.inj (hlook'.symm.trans hlook)
  subst hoid
  constructor
  · intro n tgt tg msg hobj
    rcases hres with ⟨n0, tgt0, tg0, msg0, hobj0, htg0, hmsg0⟩ | ⟨hla, _⟩
    · rw [hobj0] at hobj
      injection hobj with hobj
      injection hobj with h1 h2 h3 h4
      subst h2; subst h3; subst h4
      exact ⟨htg0, hmsg0,
        get_target_annotated repo tagref oid' n0 tgt0 tg0 msg0 hlook hobj0⟩
    · rw [hobj] at hla
      simp [isAnnotated] at hla
  · intro hla
    rcases hres with ⟨n0, tgt0, tg0, msg0, hobj0, _, _⟩ | ⟨_, a, m, hhead, htg, hmsg⟩
    · rw [hobj0] at hla
      simp [isAnnotated] at hla
    · exact ⟨a, m, hhead, htg, by rw [hmsg, hn],
        by rw [hmsg]; exact append_newline_ne_empty tagname,
        get_target_lightweight repo tagref oid' hlook hla⟩

/-- The TagRecord `analyze_tag` produces for the C6 scenario's lightweight
tag. -/
def recLW : TagRecord :=
  { name := "helloworld/1.0.0", tag_ref := "refs/tags/helloworld/1.0.0",
    tagger := sigA, message := "helloworld/1.0.0\n",
    affinity := some ("helloworld", "1.0.0") }

/-- Witness for C6's amended theorem at the concrete lightweight tag: the
record carries the HEAD commit's author, the name-plus-newline message, and
resolves to HEAD's commit id like the annotated tag does. -/
theorem tag_resolution_uniform_witness :
    (∃ a m, getObj srcRepoC6 srcRepoC6.headTarget = some (.commit a m) ∧
      recLW.tagger = a ∧ recLW.message = recLW.name ++ "\n" ∧
      recLW.message ≠ "" ∧
      get_target_from_tagref srcRepoC6 "refs/tags/helloworld/1.0.0" = .ok 0) ∧
    get_target_from_tagref srcRepoC6 "refs/tags/helloworld/2.0.0" = .ok 0 :=
  ⟨(tag_resolution_uniform srcRepoC6 "refs/tags/helloworld/1.0.0" 0 recLW
      rfl rfl).2 rfl, rfl⟩

/-- Two segments yield the `(service, version)` affinity. -/
lemma tagAffinity_two (n s v : String) (h : pySplit n "/" = [s, v]) :
    tagAffinity n = some (s, v) := by
  unfold tagAffinity
  rw [h]

/-- Any segment count other than two yields no affinity. -/
lemma tagAffinity_other (n : String) (h : (pySplit n "/").length ≠ 2) :
    tagAffinity n = none := by
  unfold tagAffinity
  match hl : pySplit n "/" with
  | [] => rfl
  | [a] => rfl
  | [a, b] => rw [hl] at h; simp at h
  | a :: b :: c :: rest => rfl

/-- C7: splitting a tag name on `/` with exactly two segments yields the
derived `(service, version)` affinity and any other segment count leaves the
record without affinity; a TagRecord is selected for replication into a
downstream repository exactly when its derived service equals that target's
service, and every tag version actually created comes from a record whose
derived service equals the target's — so records without affinity are never
replicated into any target. -/
theorem tag_affinity_replication (repo : SrcRepo) (tagref : String)
    (rec : TagRecord) (job : Jobj) (gd : GitData) (st : DownstreamState)
    (ug : Bool) :
    (analyze_tag repo tagref = .ok rec →
      (∀ s v, pySplit rec.name "/" = [s, v] → rec.affinity = some (s, v)) ∧
      ((pySplit rec.name "/").length ≠ 2 → rec.affinity = none)) ∧
    (∀ t, t ∈ (update_repo job gd st ug).tagsAttempted ↔
      t ∈ gd.tags ∧ t.affinity.map Prod.fst = some (jgetStr job "service")) ∧
    (∀ v, v ∈ (update_repo job gd st ug).tagsCreated →
      ∃ t ∈ gd.tags, t.affinity = some (jgetStr job "service", v)) := by
  refine ⟨?_, ?_, ?_⟩
  · intro h
    obtain ⟨tagname, oid, hname, hlook, hn, htr, haff, hres⟩ :=
      analyze_tag_ok repo tagref rec h
    subst hn
    exact ⟨fun s v hsplit => haff.trans (tagAffinity_two _ s v hsplit),
           fun hlen => haff.trans (tagAffinity_other _ hlen)⟩
  · intro t
    simp [update_repo, List.mem_filter]
  · intro v hv
    exact replicate_tags_created_from (jgetStr job "service") gd.tags _ _ v hv

/-- The source snapshot of the C7 witness scenario: clean, with the single
lightweight tag `helloworld/1.0.0` at HEAD. -/
def gdLW : GitData := ⟨sigA, sigA, "update protos\n", false, [recLW]⟩

/-- A resolved helloworld/go TargetConfig, restricted to the fields
`update_repo` reads. -/
def jobHelloGo : Jobj :=
  [("service", .str "helloworld"), ("repo", .str "proto-helloworld-go"),
   ("lang", .str "go")]

/-- Witness for C7 at the concrete helloworld scenario: the two-segment name
derives affinity `(helloworld, 1.0.0)`, the record is attempted for the
helloworld target, and the created version traces back to a matching
record. -/
theorem tag_affinity_replication_witness :
    recLW.affinity = some ("helloworld", "1.0.0") ∧
    recLW ∈ (update_repo jobHelloGo gdLW ⟨false, true, []⟩ true).tagsAttempted ∧
    ∃ t ∈ gdLW.tags, t.affinity = some (jgetStr jobHelloGo "service", "1.0.0") := by
  refine ⟨?_, ?_, ?_⟩
  · exact ((tag_affinity_replication srcRepoC6 "refs/tags/helloworld/1.0.0"
      recLW jobHelloGo gdLW ⟨false, true, []⟩ true).1 rfl).1
      "helloworld" "1.0.0" rfl
  · exact ((tag_affinity_replication srcRepoC6 "refs/tags/helloworld/1.0.0"
      recLW jobHelloGo gdLW ⟨false, true, []⟩ true).2.1 recLW).mpr
      ⟨List.Mem.head _, rfl⟩
  · exact (tag_affinity_replication srcRepoC6 "refs/tags/helloworld/1.0.0"
      recLW jobHelloGo gdLW ⟨false, true, []⟩ true).2.2 "1.0.0"
      (List.Mem.head _)

/-- When the merged config passes the full schema, entry resolution
succeeds: the schema guarantees `lang` is a supported enum value, so the
generated-source-dir derivation cannot raise. -/
lemma resolve_entry_ok_of_valid (service dir : String) (d e : Jobj)
    (hval : validate_full_schema (.obj (dupdate d e)) = true) :
    ∃ cfg, resolve_entry service dir d e = .ok cfg := by
  have hlang : ∃ l, dget (dupdate d e) "lang" = some (.str l) ∧
      (l = "python" ∨ l = "go") := by
    unfold validate_full_schema at hval
    simp only [Bool.and_eq_true] at hval
    obtain ⟨⟨h1, h2⟩, h3⟩ := hval
    match hd : dget (dupdate d e) "lang" with
    | none => rw [hd] at h2; simp at h2
    | some v =>
      rw [hd] at h2
      rcases v with _ | b | nn | l | xs | kvs
      · simp [langInEnum] at h2
      · simp [langInEnum] at h2
      · simp [langInEnum] at h2
      · exact ⟨l, rfl, by simpa [langInEnum] using h2⟩
      · simp [langInEnum] at h2
      · simp [langInEnum] at h2
  obtain ⟨l, hl, henum⟩ := hlang
  obtain ⟨r, hr⟩ : ∃ r, generated_source_dir l service = .ok r := by
    rcases henum with h | h <;> subst h <;> exact ⟨_, rfl⟩
  cases hres : resolve_entry service dir d e with
  | ok cfg => exact ⟨cfg, rfl⟩
  | error err =>
    exfalso
    unfold resolve_entry at hres
    simp only [hval, if_true, hl, hr] at hres
    exact Except.noConfusion hres

/-- If some entry's merged config fails the full schema, the whole entry
loop raises. -/
lemma resolve_entries_error_of_bad (service dir : String) (d : Jobj) :
    ∀ (entries : List Jobj) (en : Jobj), en ∈ entries →
      validate_full_schema (.obj (dupdate d en)) = false →
      ∃ err, resolve_entries service dir d (entries.map JValue.obj) = .error err := by
  intro entries
  induction entries with
  | nil => intro en hen; simp at hen
  | cons e0 es ih =>
    intro en hen hbad
    rcases List.mem_cons.mp hen with rfl | hmem
    · refine ⟨.validationError "merged config failed full schema", ?_⟩
      have hres : resolve_entry service dir d en =
          .error (.validationError "merged config failed full schema") := by
        simp [resolve_entry, hbad]
      rw [List.map_cons]
      unfold resolve_entries
      simp only [asObj]
      rw [hres]
    · cases hres : resolve_entry service dir d e0 with
      | error err =>
        exact ⟨err, by
          rw [List.map_cons]; unfold resolve_entries; simp only [asObj]; rw [hres]⟩
      | ok cfg =>
        obtain ⟨err, herr⟩ := ih en hmem hbad
        exact ⟨err, by
          rw [List.map_cons]; unfold resolve_entries; simp only [asObj]
          rw [hres, herr]⟩

/-- An array all of whose elements are objects passes the service schema. -/
lemma validate_service_schema_map_obj (entries : List Jobj) :
    validate_service_schema (.arr (entries.map JValue.obj)) = true := by
  unfold validate_service_schema
  rw [List.all_eq_true]
  intro x hx
  obtain ⟨e, he, rfl⟩ := List.mem_map.mp hx
  rfl

/-- C8: configuration resolution raises in each listed case — the default
config failing its is-an-object schema, a service override list failing the
array-of-objects schema, a merged per-language config failing the full
schema, and a service whose config file is missing. -/
theorem config_resolution_error_cases :
    (∀ j, validate_default_schema j = false →
      ∃ e, load_default_config (some j) = .error e) ∧
    (∀ s (d : Jobj) dir j, validate_service_schema j = false →
      ∃ e, load_service_config s d dir (some j) = .error e) ∧
    (∀ s (d : Jobj) dir (entries : List Jobj) (en : Jobj), en ∈ entries →
      validate_full_schema (.obj (dupdate d en)) = false →
      ∃ e, load_service_config s d dir (some (.arr (entries.map JValue.obj))) =
        .error e) ∧
    (∀ s (d : Jobj) dir, ∃ e, load_service_config s d dir none = .error e) := by
  refine ⟨?_, ?_, ?_, ?_⟩
  · intro j hj
    exact ⟨.validationError "default config is not an object",
      by simp [load_default_config, hj]⟩
  · intro s d dir j hj
    exact ⟨.validationError "service config failed schema",
      by simp [load_service_config, hj]⟩
  · intro s d dir entries en hen hbad
    obtain ⟨err, herr⟩ := resolve_entries_error_of_bad s dir d entries en hen hbad
    exact ⟨err,
      by simp [load_service_config, validate_service_schema_map_obj, herr]⟩
  · intro s d dir
    exact ⟨_, rfl⟩

/-- Witness for C8 at concrete malformed configurations: a non-object
default config, a non-array service config, an override whose merge misses
the required keys, and a missing service config file. -/
theorem config_resolution_error_cases_witness :
    (∃ e, load_default_config (some (.str "oops")) = .error e) ∧
    (∃ e, load_service_config "billing" [] "service" (some (.obj [])) = .error e) ∧
    (∃ e, load_service_config "billing" [] "service"
      (some (.arr [.obj []])) = .error e) ∧
    (∃ e, load_service_config "billing" [] "service" none = .error e) :=
  ⟨config_resolution_error_cases.1 (.str "oops") rfl,
   config_resolution_error_cases.2.1 "billing" [] "service" (.obj []) rfl,
   config_resolution_error_cases.2.2.1 "billing" [] "service" [[]] []
     (List.Mem.head _) rfl,
   config_resolution_error_cases.2.2.2 "billing" [] "service"⟩

end ProtoDemo
